import Mathlib

/-!
Verification of the simpad terminal editor (src/simpad.c) against its
natural-language specification.  The C source is shallowly embedded: rows are
`List Char`, the global `struct editorConfig E` becomes the structure `EState`,
and C `int` values are `Int`.  Each embedded definition mirrors the C function
of the same name; external collaborators (terminal driver, file store) are
passed in as explicit parameters.
-/

namespace Simpad

/-- The constant `SIMPAD_TAB_STOP` from simpad.c. -/
def TAB_STOP : Nat := 8

/-! Key codes of `enum editorKey` (the decoder and dispatcher work on C
`int` values, with printable bytes below 1000 and these codes above). -/

/-- Key code `BACKSPACE` (127). -/
def BACKSPACE : Int := 127
/-- Key code `ARROW_LEFT` (1000). -/
def ARROW_LEFT : Int := 1000
/-- Key code `ARROW_RIGHT` (1001). -/
def ARROW_RIGHT : Int := 1001
/-- Key code `ARROW_UP` (1002). -/
def ARROW_UP : Int := 1002
/-- Key code `ARROW_DOWN` (1003). -/
def ARROW_DOWN : Int := 1003
/-- Key code `DEL_KEY` (1004). -/
def DEL_KEY : Int := 1004
/-- Key code `HOME_KEY` (1005). -/
def HOME_KEY : Int := 1005
/-- Key code `END_KEY` (1006). -/
def END_KEY : Int := 1006
/-- Key code `PAGE_UP` (1007). -/
def PAGE_UP : Int := 1007
/-- Key code `PAGE_DOWN` (1008). -/
def PAGE_DOWN : Int := 1008

/-! ### Row index mapping and render projection -/

/-- Number of render columns one character occupies when emitted at render
column `rx`: a tab advances to the next multiple of the tab stop
(`renderX += (SIMPAD_TAB_STOP - 1) - (renderX % SIMPAD_TAB_STOP); renderX++;`
in `editorRowCursorXToRenderX`), any other character occupies one column. -/
def charWidth (rx : Nat) (c : Char) : Nat :=
  if c = '\t' then TAB_STOP - rx % TAB_STOP else 1

/-- Loop of `editorRowCursorXToRenderX`: walk the first `x` characters,
accumulating the render column `rx`.  (The C loop reads `row->chars[i]` for
`i < cursorX`; it is only invoked with `cursorX ≤ row->size`, and for a
depleted list we return the accumulator.) -/
def cx2rxAux : List Char → Nat → Nat → Nat
  | _, 0, rx => rx
  | [], _ + 1, rx => rx
  | c :: cs, x + 1, rx => cx2rxAux cs x (rx + charWidth rx c)

/-- The function `editorRowCursorXToRenderX(row, cursorX)`: render column of
raw column `cursorX`. -/
def editorRowCursorXToRenderX (cs : List Char) (x : Nat) : Nat :=
  cx2rxAux cs x 0

/-- Loop of `editorRowRenderXToCursorX`: scan raw columns left to right,
accumulating the running render column `rx`; return the first raw column whose
cumulative render width exceeds the query `renderX`, or the row size if none
does. -/
def rx2cxAux : List Char → Nat → Nat → Nat
  | [], _, _ => 0
  | c :: cs, renderX, rx =>
    let rx2 := rx + charWidth rx c
    if renderX < rx2 then 0 else rx2cxAux cs renderX rx2 + 1

/-- The function `editorRowRenderXToCursorX(row, renderX)`. -/
def editorRowRenderXToCursorX (cs : List Char) (renderX : Nat) : Nat :=
  rx2cxAux cs renderX 0

/-- Tab-expansion loop of `editorUpdateRow`: a tab emits one space and then
spaces until the render index is a multiple of the tab stop; other characters
are copied verbatim.  `idx` is the current render index. -/
def renderTabs : Nat → List Char → List Char
  | _, [] => []
  | idx, c :: cs =>
    if c = '\t' then
      let pad := TAB_STOP - idx % TAB_STOP
      List.replicate pad ' ' ++ renderTabs (idx + pad) cs
    else
      c :: renderTabs (idx + 1) cs

/-- Render projection of a row's raw content (`row->render` as built by
`editorUpdateRow`); its length is `row->renderSize`. -/
def renderChars (cs : List Char) : List Char := renderTabs 0 cs

/-- Tab-counting loop at the top of `editorUpdateRow`. -/
def tabCount : List Char → Nat
  | [] => 0
  | c :: cs => (if c = '\t' then 1 else 0) + tabCount cs

/-! ### Editor state and document operations

The render and highlight arrays are derived data recomputed in full from
`chars` by `editorUpdateRow` on every content change, so the embedding stores
only the raw content of each row and recovers `row->render` via `renderChars`
where needed. -/

/-- The mutable fields of `struct editorConfig E` that the document, cursor
and viewport operations touch. -/
structure EState where
  cursorX : Int
  cursorY : Int
  renderX : Int
  rowOffset : Int
  colOffset : Int
  termRows : Int
  termCols : Int
  rows : List (List Char)
  changed : Int
  fileName : Option (List Char)
deriving DecidableEq

/-- The field `E.numRows` (kept equal to the length of `E.row`). -/
def numRows (st : EState) : Int := (st.rows.length : Int)

/-- Raw content of `E.row[y]` (the C code only dereferences in-bounds rows;
out-of-range indices yield the empty row here). -/
def rowChars (st : EState) (y : Int) : List Char := st.rows.getD y.toNat []

/-- The function `editorInsertRow(at, s, length)`: out-of-range `at` returns
without inserting; otherwise the new row is placed at index `at`, subsequent
rows shift up by one, and the modified counter increments. -/
def editorInsertRow (st : EState) (atI : Int) (s : List Char) : EState :=
  if atI < 0 ∨ numRows st < atI then st
  else
    { st with
      rows := st.rows.take atI.toNat ++ s :: st.rows.drop atI.toNat,
      changed := st.changed + 1 }

/-- The function `editorDeleteRow(at)`: no-op outside `[0, numRows)`. -/
def editorDeleteRow (st : EState) (atI : Int) : EState :=
  if atI < 0 ∨ numRows st ≤ atI then st
  else
    { st with
      rows := st.rows.take atI.toNat ++ st.rows.drop (atI.toNat + 1),
      changed := st.changed + 1 }

/-- The function `editorRowInsertCharacter(&E.row[y], at, c)`: clamps `at` to
`[0, row->size]`, inserts, increments the modified counter. -/
def editorRowInsertCharacter (st : EState) (y : Int) (atI : Int) (c : Char) : EState :=
  let row := rowChars st y
  let at2 := if atI < 0 ∨ (row.length : Int) < atI then (row.length : Int) else atI
  { st with
    rows := st.rows.set y.toNat (row.take at2.toNat ++ c :: row.drop at2.toNat),
    changed := st.changed + 1 }

/-- The function `editorRowAppendString(&E.row[y], s, length)`. -/
def editorRowAppendString (st : EState) (y : Int) (s : List Char) : EState :=
  { st with
    rows := st.rows.set y.toNat (rowChars st y ++ s),
    changed := st.changed + 1 }

/-- The function `editorRowDeleteCharacter(&E.row[y], at)`: no-op when `at`
is outside `[0, row->size)`. -/
def editorRowDeleteCharacter (st : EState) (y : Int) (atI : Int) : EState :=
  let row := rowChars st y
  if atI < 0 ∨ (row.length : Int) ≤ atI then st
  else
    { st with
      rows := st.rows.set y.toNat (row.take atI.toNat ++ row.drop (atI.toNat + 1)),
      changed := st.changed + 1 }

/-- The function `editorInsertCharacter(c)`. -/
def editorInsertCharacter (st : EState) (c : Char) : EState :=
  let st1 := if st.cursorY = numRows st then editorInsertRow st (numRows st) [] else st
  let st2 := editorRowInsertCharacter st1 st1.cursorY st1.cursorX c
  { st2 with cursorX := st2.cursorX + 1 }

/-- The function `editorInsertNewline()`: at column 0 an empty row goes in
above the cursor row, otherwise the current row splits at the cursor; the
cursor then moves to column 0 of the next line. -/
def editorInsertNewline (st : EState) : EState :=
  let st1 :=
    if st.cursorX = 0 then editorInsertRow st st.cursorY []
    else
      let row := rowChars st st.cursorY
      let st' := editorInsertRow st (st.cursorY + 1) (row.drop st.cursorX.toNat)
      { st' with rows := st'.rows.set st.cursorY.toNat (row.take st.cursorX.toNat) }
  { st1 with cursorY := st1.cursorY + 1, cursorX := 0 }

/-- The function `editorDeleteCharacter()`. -/
def editorDeleteCharacter (st : EState) : EState :=
  if st.cursorY = numRows st then st
  else if st.cursorX = 0 ∧ st.cursorY = 0 then st
  else
    let row := rowChars st st.cursorY
    if st.cursorX > 0 then
      let st1 := editorRowDeleteCharacter st st.cursorY (st.cursorX - 1)
      { st1 with cursorX := st1.cursorX - 1 }
    else
      let st1 := { st with cursorX := ((rowChars st (st.cursorY - 1)).length : Int) }
      let st2 := editorRowAppendString st1 (st1.cursorY - 1) row
      let st3 := editorDeleteRow st2 st2.cursorY
      { st3 with cursorY := st3.cursorY - 1 }

/-- The function `editorMoveCursor(key)`: arrow movement followed by the
snap-to-row-length clamp of `cursorX`. -/
def editorMoveCursor (key : Int) (st : EState) : EState :=
  let rowOpt : Option (List Char) :=
    if numRows st ≤ st.cursorY then none else some (rowChars st st.cursorY)
  let st1 :=
    if key = ARROW_LEFT then
      if st.cursorX ≠ 0 then { st with cursorX := st.cursorX - 1 }
      else if st.cursorY > 0 then
        { st with cursorY := st.cursorY - 1,
                  cursorX := ((rowChars st (st.cursorY - 1)).length : Int) }
      else st
    else if key = ARROW_RIGHT then
      match rowOpt with
      | some r =>
        if st.cursorX < (r.length : Int) then { st with cursorX := st.cursorX + 1 }
        else if st.cursorX = (r.length : Int) then
          { st with cursorY := st.cursorY + 1, cursorX := 0 }
        else st
      | none => st
    else if key = ARROW_UP then
      if st.cursorY ≠ 0 then { st with cursorY := st.cursorY - 1 } else st
    else if key = ARROW_DOWN then
      if st.cursorY < numRows st then { st with cursorY := st.cursorY + 1 } else st
    else st
  let rowLen : Int :=
    if numRows st1 ≤ st1.cursorY then 0 else ((rowChars st1 st1.cursorY).length : Int)
  if st1.cursorX > rowLen then { st1 with cursorX := rowLen } else st1

/-- The `while (times--) editorMoveCursor(...)` loop of the Page Up/Down
handler. -/
def moveTimes (key : Int) : Nat → EState → EState
  | 0, st => st
  | n + 1, st => moveTimes key n (editorMoveCursor key st)

/-- The function `editorProcessKeypress()` applied to an already-decoded key
`c`, for the keys that act on the editor state modeled here.  `Ctrl-Q`
(process exit and quit-confirmation), `Ctrl-S` (`editorSave`, embedded
separately with its file-store environment) and `Ctrl-F` (`editorFind`,
embedded separately) dispatch to collaborators outside this state transition
and leave `EState` as is. -/
def editorProcessKeypress (c : Int) (st : EState) : EState :=
  if c = 13 then editorInsertNewline st
  else if c = 17 then st
  else if c = 19 then st
  else if c = HOME_KEY then { st with cursorX := 0 }
  else if c = END_KEY then
    if st.cursorY < numRows st then
      { st with cursorX := ((rowChars st st.cursorY).length : Int) }
    else st
  else if c = 6 then st
  else if c = BACKSPACE ∨ c = 8 ∨ c = DEL_KEY then
    let st1 := if c = DEL_KEY then editorMoveCursor ARROW_RIGHT st else st
    editorDeleteCharacter st1
  else if c = PAGE_UP ∨ c = PAGE_DOWN then
    let st1 :=
      if c = PAGE_UP then { st with cursorY := st.rowOffset }
      else
        let y := st.rowOffset + st.termRows - 1
        let y2 := if y > st.termRows then numRows st else y
        { st with cursorY := y2 }
    moveTimes (if c = PAGE_UP then ARROW_UP else ARROW_DOWN) st1.termRows.toNat st1
  else if c = ARROW_UP ∨ c = ARROW_DOWN ∨ c = ARROW_LEFT ∨ c = ARROW_RIGHT then
    editorMoveCursor c st
  else if c = 12 ∨ c = 27 then st
  else editorInsertCharacter st (Char.ofNat c.toNat)

/-- The cursor invariant of the specification: `0 ≤ y ≤ numRows`; if
`y < numRows` then `0 ≤ x ≤ row[y].size`, else `x == 0`. -/
def cursorInv (st : EState) : Prop :=
  0 ≤ st.cursorY ∧ st.cursorY ≤ numRows st ∧
    (st.cursorY < numRows st →
      0 ≤ st.cursorX ∧ st.cursorX ≤ ((rowChars st st.cursorY).length : Int)) ∧
    (¬ st.cursorY < numRows st → st.cursorX = 0)

instance (st : EState) : Decidable (cursorInv st) := by
  unfold cursorInv; infer_instance

/-! ### Viewport -/

/-- The function `editorScroll()`: recompute `renderX` from the cursor's raw
column, then pull each offset toward the cursor (the two row conditions run in
sequence, the second reading the offset the first may have written; likewise
for columns). -/
def editorScroll (st : EState) : EState :=
  let rX : Int :=
    if st.cursorY < numRows st then
      (editorRowCursorXToRenderX (rowChars st st.cursorY) st.cursorX.toNat : Int)
    else 0
  let rowOff1 := if st.cursorY < st.rowOffset then st.cursorY else st.rowOffset
  let rowOff2 :=
    if st.cursorY ≥ rowOff1 + st.termRows then st.cursorY - st.termRows + 1 else rowOff1
  let colOff1 := if rX < st.colOffset then rX else st.colOffset
  let colOff2 :=
    if rX ≥ colOff1 + st.termCols then rX - st.termCols + 1 else colOff1
  { st with renderX := rX, rowOffset := rowOff2, colOffset := colOff2 }

/-! ### Key decoder -/

/-- The function `editorReadKey()`: `c` is the byte the blocking read
delivered, `rest` the bytes still available before the read timeout — an
exhausted list models a `read` that returns without data.  A leading escape
byte heads a bounded-lookahead decode; every unmatched pattern falls back to a
bare escape. -/
def editorReadKey (c : Char) (rest : List Char) : Int :=
  if c = '\x1b' then
    match rest with
    | [] => 27
    | [_] => 27
    | s0 :: s1 :: rest2 =>
      if s0 = '[' then
        if '0' ≤ s1 ∧ s1 ≤ '9' then
          match rest2 with
          | [] => 27
          | s2 :: _ =>
            if s2 = '~' then
              if s1 = '1' then HOME_KEY
              else if s1 = '3' then DEL_KEY
              else if s1 = '4' then END_KEY
              else if s1 = '5' then PAGE_UP
              else if s1 = '6' then PAGE_DOWN
              else if s1 = '7' then HOME_KEY
              else if s1 = '8' then END_KEY
              else 27
            else 27
        else
          if s1 = 'A' then ARROW_UP
          else if s1 = 'B' then ARROW_DOWN
          else if s1 = 'C' then ARROW_RIGHT
          else if s1 = 'D' then ARROW_LEFT
          else if s1 = 'H' then HOME_KEY
          else if s1 = 'F' then END_KEY
          else 27
      else if s0 = 'O' then
        if s1 = 'H' then HOME_KEY
        else if s1 = 'F' then END_KEY
        else 27
      else 27
  else (c.toNat : Int)

/-! ### File input/output -/

/-- The function `editorRowsToString()`: every row's raw content followed by
exactly one line-feed byte, in row order. -/
def editorRowsToString (rows : List (List Char)) : List Char :=
  (rows.map (fun r => r ++ ['\n'])).flatten

/-- One `getline` call: the longest prefix up to and including the first
line-feed byte, paired with the remaining bytes. -/
def splitAfterNl : List Char → List Char × List Char
  | [] => ([], [])
  | c :: cs =>
    if c = '\n' then ([c], cs)
    else
      let p := splitAfterNl cs
      (c :: p.1, p.2)

/-- The `getline` loop of `editorOpen`, fueled by the byte count (each
`getline` consumes at least one byte, so `bytes.length` steps suffice). -/
def getlinesFuel : Nat → List Char → List (List Char)
  | 0, _ => []
  | _ + 1, [] => []
  | fuel + 1, c :: cs =>
    let p := splitAfterNl (c :: cs)
    p.1 :: getlinesFuel fuel p.2

/-- Split file bytes into the byte-strings successive `getline` calls
return. -/
def getlines (bytes : List Char) : List (List Char) :=
  getlinesFuel bytes.length bytes

/-- The terminator-stripping loop of `editorOpen`:
`while (lineLength > 0 && (line[len-1] == '\n' || line[len-1] == '\r')) len--;`. -/
def stripNewlines (s : List Char) : List Char :=
  (s.reverse.dropWhile (fun c => c = '\n' || c = '\r')).reverse

/-- The rows `editorOpen` builds from a file's bytes: one
`editorInsertRow(E.numRows, ...)` per `getline` result, terminators
stripped. -/
def editorOpenRows (bytes : List Char) : List (List Char) :=
  (getlines bytes).map stripNewlines

/-- Outcome of the one `editorSetStatusMessage` call each `editorSave` path
ends in. -/
inductive SaveMsg where
  | saveAborted
  | bytesWritten (n : Int)
  | ioError
deriving DecidableEq

/-- The file-store collaborator of `editorSave`: result of the save-as
prompt, of `open(..., O_RDWR | O_CREAT, 0644)`, of `ftruncate`, and the byte
count `write` reports. -/
structure SaveEnv where
  promptResult : Option (List Char)
  openOk : Bool
  truncOk : Bool
  writeCount : Int
deriving DecidableEq

/-- Body of `editorSave` after the filename is settled: serialize the rows,
then open, truncate and write; only a complete write clears the modified
counter, every other path reports an I/O error and leaves the state alone. -/
def saveBody (st : EState) (env : SaveEnv) : EState × SaveMsg :=
  let buffer := editorRowsToString st.rows
  let len : Int := (buffer.length : Int)
  if env.openOk then
    if env.truncOk then
      if env.writeCount = len then ({ st with changed := 0 }, SaveMsg.bytesWritten len)
      else (st, SaveMsg.ioError)
    else (st, SaveMsg.ioError)
  else (st, SaveMsg.ioError)

/-- The function `editorSave()`: a missing filename is first requested via
`editorPrompt`; a cancelled prompt aborts the save. -/
def editorSave (st : EState) (env : SaveEnv) : EState × SaveMsg :=
  match st.fileName with
  | none =>
    match env.promptResult with
    | none => (st, SaveMsg.saveAborted)
    | some name => saveBody { st with fileName := some name } env
  | some _ => saveBody st env

/-! ### Search -/

/-- Is `q` an initial segment of `s`?  Models the per-position comparison of
`strstr`. -/
def leadsWith : List Char → List Char → Bool
  | [], _ => true
  | _ :: _, [] => false
  | c :: q, d :: s => c = d && leadsWith q s

/-- Does `q` occur contiguously in `s`?  Models `strstr(s, q) != NULL`. -/
def containsSub : List Char → List Char → Bool
  | [], q => leadsWith q []
  | s@(_ :: s'), q => leadsWith q s || containsSub s' q

/-- The statics `lastMatch` and `direction` of `editorFindCallback`. -/
structure FindState where
  lastMatch : Int
  direction : Int
deriving DecidableEq

/-- The match-scan loop of `editorFindCallback`: step `current` by
`direction` with wraparound over `[0, numRows)`, at most `numRows` times,
returning the first row whose render content contains the query. -/
def findScanAux (rows : List (List Char)) (query : List Char) :
    Nat → Int → Int → Option Int
  | 0, _, _ => none
  | fuel + 1, current, direction =>
    let cur1 := current + direction
    let cur2 :=
      if cur1 = -1 then (rows.length : Int) - 1
      else if cur1 = (rows.length : Int) then 0
      else cur1
    if containsSub (renderChars (rows.getD cur2.toNat [])) query then some cur2
    else findScanAux rows query fuel cur2 direction

/-- One invocation of `editorFindCallback(query, key)` on the document
`rows`: returns the updated static state and the row index of the match found
(if any); on a hit the C code also moves the cursor there and overlays the
match highlight, state not needed by the search-order claim. -/
def editorFindCallback (rows : List (List Char)) (query : List Char)
    (fs : FindState) (key : Int) : FindState × Option Int :=
  if key = 13 ∨ key = 27 then (⟨-1, 1⟩, none)
  else
    let fs1 : FindState :=
      if key = ARROW_RIGHT ∨ key = ARROW_DOWN then ⟨fs.lastMatch, 1⟩
      else if key = ARROW_LEFT ∨ key = ARROW_UP then ⟨fs.lastMatch, -1⟩
      else ⟨-1, 1⟩
    let fs2 : FindState := if fs1.lastMatch = -1 then ⟨fs1.lastMatch, 1⟩ else fs1
    match findScanAux rows query rows.length fs2.lastMatch fs2.direction with
    | some r => (⟨r, fs2.direction⟩, some r)
    | none => (fs2, none)

/-! ### Prompt loop -/

/-- The function `editorPrompt(prompt, callback)` driven by the finite key
list `keys` (each entry one `editorReadKey` result): `none` means the keys ran
out with the loop still prompting, `some none` a cancellation via escape,
`some (some s)` an accepted input `s`.  Delete, `Ctrl-H` and backspace drop
the last buffered byte; enter accepts only a non-empty buffer; printable bytes
below 128 append. -/
def editorPrompt (keys : List Int) (buffer : List Char) :
    Option (Option (List Char)) :=
  match keys with
  | [] => none
  | c :: rest =>
    if c = DEL_KEY ∨ c = 8 ∨ c = BACKSPACE then editorPrompt rest buffer.dropLast
    else if c = 27 then some none
    else if c = 13 then
      if buffer ≠ [] then some (some buffer) else editorPrompt rest buffer
    else if ¬ (c < 32 ∨ c = 127) ∧ c < 128 then
      editorPrompt rest (buffer ++ [Char.ofNat c.toNat])
    else editorPrompt rest buffer

end Simpad

/-! ## Helper lemmas -/

namespace Simpad

theorem charWidth_pos (rx : Nat) (c : Char) : 0 < charWidth rx c := by
  unfold charWidth
  split
  · have : rx % TAB_STOP < TAB_STOP := Nat.mod_lt _ (by decide)
    omega
  · exact Nat.one_pos

theorem cx2rxAux_ge (cs : List Char) : ∀ x rx, rx ≤ cx2rxAux cs x rx := by
  induction cs with
  | nil => intro x rx; cases x <;> simp [cx2rxAux]
  | cons c cs ih =>
    intro x rx
    cases x with
    | zero => simp [cx2rxAux]
    | succ x =>
      calc rx ≤ rx + charWidth rx c := Nat.le_add_right _ _
        _ ≤ cx2rxAux cs x (rx + charWidth rx c) := ih x _

theorem renderTabs_length_bounds (cs : List Char) :
    ∀ idx, cs.length ≤ (renderTabs idx cs).length ∧
      (renderTabs idx cs).length ≤ cs.length + tabCount cs * (TAB_STOP - 1) := by
  induction cs with
  | nil => intro idx; simp [renderTabs, tabCount]
  | cons c cs ih =>
    intro idx
    by_cases hc : c = '\t'
    · have hrec := ih (idx + (TAB_STOP - idx % TAB_STOP))
      simp only [renderTabs, tabCount, hc, if_true, List.length_append,
        List.length_replicate, List.length_cons]
      simp only [show TAB_STOP = 8 from rfl] at hrec ⊢
      omega
    · have hrec := ih (idx + 1)
      simp only [renderTabs, tabCount, hc, if_false, List.length_cons]
      simp only [show TAB_STOP = 8 from rfl] at hrec ⊢
      omega

theorem roundtrip_aux (cs : List Char) :
    ∀ x rx, x ≤ cs.length → rx2cxAux cs (cx2rxAux cs x rx) rx = x := by
  induction cs with
  | nil =>
    intro x rx hx
    have : x = 0 := Nat.le_zero.mp hx
    subst this
    simp [cx2rxAux, rx2cxAux]
  | cons c cs ih =>
    intro x rx hx
    cases x with
    | zero =>
      have hlt : rx < rx + charWidth rx c := by
        have := charWidth_pos rx c; omega
      simp [cx2rxAux, rx2cxAux, hlt]
    | succ x =>
      have hx' : x ≤ cs.length := Nat.succ_le_succ_iff.mp hx
      have hge : rx + charWidth rx c ≤ cx2rxAux cs x (rx + charWidth rx c) :=
        cx2rxAux_ge cs x _
      have hnot : ¬ cx2rxAux cs x (rx + charWidth rx c) < rx + charWidth rx c := by omega
      simp only [cx2rxAux, rx2cxAux, hnot, if_false]
      rw [ih x _ hx']

end Simpad

/-! ## Claim theorems -/

/-- C4: for every row and every valid raw column `x` with `0 ≤ x ≤ row.size`,
converting `x` to a render column with `editorRowCursorXToRenderX` and back
with `editorRowRenderXToCursorX` yields `x`. -/
theorem c4_cursorx_renderx_roundtrip (cs : List Char) (x : Nat)
    (hx : x ≤ cs.length) :
    Simpad.editorRowRenderXToCursorX cs (Simpad.editorRowCursorXToRenderX cs x) = x :=
  Simpad.roundtrip_aux cs x 0 hx

/-- Witness for C4 at the concrete row `"a\tb"` and raw column 2. -/
theorem c4_cursorx_renderx_roundtrip_witness :
    2 ≤ (['a', '\t', 'b'] : List Char).length ∧
      Simpad.editorRowRenderXToCursorX ['a', '\t', 'b']
        (Simpad.editorRowCursorXToRenderX ['a', '\t', 'b'] 2) = 2 :=
  ⟨by decide, c4_cursorx_renderx_roundtrip ['a', '\t', 'b'] 2 (by decide)⟩

/-- C2 counterexample: for the raw content `"ab\tc"` (the spec's own example
row), the render length is 9 — the tab at render column 2 expands to 6 spaces —
while the claimed formula `chars.length + tabCount * (tabStop - 1)` gives 11. -/
theorem c2_render_length_cex :
    ¬ (Simpad.renderChars ['a', 'b', '\t', 'c']).length =
        (['a', 'b', '\t', 'c'] : List Char).length +
          Simpad.tabCount ['a', 'b', '\t', 'c'] * (Simpad.TAB_STOP - 1) := by
  decide

/-- C2 amended: after the render projection is recomputed from the raw
content, the render length lies between the raw character count and the raw
character count plus `tabCount * (tabStop - 1)`; each tab expands to the next
multiple of the tab stop, so it contributes between 1 and tabStop columns. -/
theorem c2_render_length_bounds (cs : List Char) :
    cs.length ≤ (Simpad.renderChars cs).length ∧
      (Simpad.renderChars cs).length ≤
        cs.length + Simpad.tabCount cs * (Simpad.TAB_STOP - 1) :=
  Simpad.renderTabs_length_bounds cs 0

/-- C3 counterexample: on a one-row document, `editorInsertRow` with the
out-of-range index 2 is a no-op — the row count stays 1 and the modified
counter is untouched — whereas the claim says the insertion lands at the
nearest valid position (index 1, giving rows `[['a'], ['x']]`). -/
theorem c3_insertRow_out_of_range_cex :
    Simpad.editorInsertRow (⟨0, 0, 0, 0, 0, 10, 40, [['a']], 0, none⟩ : Simpad.EState) 2 ['x']
        = (⟨0, 0, 0, 0, 0, 10, 40, [['a']], 0, none⟩ : Simpad.EState) ∧
      (Simpad.editorInsertRow (⟨0, 0, 0, 0, 0, 10, 40, [['a']], 0, none⟩ : Simpad.EState) 2
          ['x']).rows ≠ [['a'], ['x']] := by
  decide

/-- C3 amended: `insertRow(at, content)` inserts a new row at position `at`
only when `at` already lies in `[0, numRows]`, shifting subsequent rows up by
one index and incrementing the modified counter; an out-of-range `at` is
rejected and the call is a no-op (nothing is inserted and the modified counter
is unchanged). -/
theorem c3_insertRow_amended (st : Simpad.EState) (atI : Int) (s : List Char) :
    (0 ≤ atI → atI ≤ Simpad.numRows st →
      (Simpad.editorInsertRow st atI s).rows =
          st.rows.take atI.toNat ++ s :: st.rows.drop atI.toNat ∧
        (Simpad.editorInsertRow st atI s).changed = st.changed + 1) ∧
      (atI < 0 ∨ Simpad.numRows st < atI → Simpad.editorInsertRow st atI s = st) := by
  constructor
  · intro h0 hn
    have hguard : ¬ (atI < 0 ∨ Simpad.numRows st < atI) := by omega
    simp [Simpad.editorInsertRow, hguard]
  · intro h
    simp [Simpad.editorInsertRow, h]

/-- Witness for C3 (amended) on a one-row document at index 1. -/
theorem c3_insertRow_amended_witness :
    ((0 : Int) ≤ 1 ∧ (1 : Int) ≤ Simpad.numRows ⟨0, 0, 0, 0, 0, 10, 40, [['a']], 0, none⟩) ∧
      (Simpad.editorInsertRow (⟨0, 0, 0, 0, 0, 10, 40, [['a']], 0, none⟩ : Simpad.EState) 1
            ['x']).rows = [['a'], ['x']] ∧
        (Simpad.editorInsertRow (⟨0, 0, 0, 0, 0, 10, 40, [['a']], 0, none⟩ : Simpad.EState) 1
            ['x']).changed = 0 + 1 := by
  refine ⟨⟨by decide, by decide⟩, ?_⟩
  have h := (c3_insertRow_amended (⟨0, 0, 0, 0, 0, 10, 40, [['a']], 0, none⟩ : Simpad.EState)
    1 ['x']).1 (by decide) (by decide)
  exact ⟨by rw [h.1]; decide, h.2⟩

set_option maxRecDepth 4096 in
/-- C1 (code defect): the Page Down handler breaks the cursor invariant.  On
a two-row document viewed in a 10-row window (`termRows = 10`,
`rowOffset = 0`, cursor at the origin — the state reached by opening a
two-line file), the handler sets `cursorY = rowOffset + termRows - 1 = 9`,
its clamp compares against `termRows` instead of `numRows`
(`if (E.cursorY > E.termRows) E.cursorY = E.numRows;` in simpad.c line 971)
and so does not fire, and the ten subsequent `editorMoveCursor(ARROW_DOWN)`
calls leave `cursorY` at 9 — above `numRows = 2`, violating
`0 ≤ cursorY ≤ numRows`.  (A subsequent character insert would then index
`E.row[9]` out of bounds.) -/
theorem c1_pagedown_breaks_cursorInv :
    Simpad.cursorInv (⟨0, 0, 0, 0, 0, 10, 40, [['a'], ['b']], 0, none⟩ : Simpad.EState) ∧
      (Simpad.editorProcessKeypress Simpad.PAGE_DOWN
          (⟨0, 0, 0, 0, 0, 10, 40, [['a'], ['b']], 0, none⟩ : Simpad.EState)).cursorY = 9 ∧
      Simpad.numRows
          (Simpad.editorProcessKeypress Simpad.PAGE_DOWN
            (⟨0, 0, 0, 0, 0, 10, 40, [['a'], ['b']], 0, none⟩ : Simpad.EState)) = 2 ∧
      ¬ Simpad.cursorInv
          (Simpad.editorProcessKeypress Simpad.PAGE_DOWN
            (⟨0, 0, 0, 0, 0, 10, 40, [['a'], ['b']], 0, none⟩ : Simpad.EState)) := by
  decide

/-- C5: after every `editorScroll` recompute, given positive `termRows` and
`termCols` (the visible window dimensions), the cursor's render position lies
inside the visible window: `rowOffset ≤ cursorY < rowOffset + termRows` and
`colOffset ≤ renderX < colOffset + termCols`. -/
theorem c5_scroll_cursor_visible (st : Simpad.EState)
    (hr : 1 ≤ st.termRows) (hc : 1 ≤ st.termCols) :
    (Simpad.editorScroll st).rowOffset ≤ (Simpad.editorScroll st).cursorY ∧
      (Simpad.editorScroll st).cursorY <
        (Simpad.editorScroll st).rowOffset + (Simpad.editorScroll st).termRows ∧
      (Simpad.editorScroll st).colOffset ≤ (Simpad.editorScroll st).renderX ∧
      (Simpad.editorScroll st).renderX <
        (Simpad.editorScroll st).colOffset + (Simpad.editorScroll st).termCols := by
  simp only [Simpad.editorScroll]
  split_ifs <;> simp_all <;> omega

/-- Witness for C5: a cursor far below and right of a small window is pulled
back inside. -/
theorem c5_scroll_cursor_visible_witness :
    ((1 : Int) ≤ (Simpad.EState.mk 9 6 0 0 0 3 4 [[], [], [], [], [], [], ['a', 'b', 'c',
          'd', 'e', 'f', 'g', 'h', 'i', 'j'], []] 0 none).termRows ∧
        (1 : Int) ≤ (Simpad.EState.mk 9 6 0 0 0 3 4 [[], [], [], [], [], [], ['a', 'b', 'c',
          'd', 'e', 'f', 'g', 'h', 'i', 'j'], []] 0 none).termCols) ∧
      (Simpad.editorScroll (Simpad.EState.mk 9 6 0 0 0 3 4 [[], [], [], [], [], [], ['a',
          'b', 'c', 'd', 'e', 'f', 'g', 'h', 'i', 'j'], []] 0 none)).rowOffset ≤
        (Simpad.editorScroll (Simpad.EState.mk 9 6 0 0 0 3 4 [[], [], [], [], [], [], ['a',
          'b', 'c', 'd', 'e', 'f', 'g', 'h', 'i', 'j'], []] 0 none)).cursorY := by
  refine ⟨⟨by decide, by decide⟩, ?_⟩
  exact (c5_scroll_cursor_visible
    (Simpad.EState.mk 9 6 0 0 0 3 4 [[], [], [], [], [], [], ['a', 'b', 'c', 'd', 'e', 'f',
      'g', 'h', 'i', 'j'], []] 0 none) (by decide) (by decide)).1

/-- C6: the key decoder maps `{0x1B,'[','A'}` to Up, `{0x1B,'[','3','~'}` to
Delete, `{0x1B,'[','5','~'}` to Page Up; digits 1 and 7 followed by `~` to
Home, 4 and 8 to End, 6 to Page Down; any digit followed by a byte other than
`~` to a bare escape; and a stream that ends after `{0x1B,'['}` (the next
read times out) to a bare escape. -/
theorem c6_decoder_table :
    Simpad.editorReadKey '\x1b' ['[', 'A'] = Simpad.ARROW_UP ∧
      Simpad.editorReadKey '\x1b' ['[', '3', '~'] = Simpad.DEL_KEY ∧
      Simpad.editorReadKey '\x1b' ['[', '5', '~'] = Simpad.PAGE_UP ∧
      Simpad.editorReadKey '\x1b' ['[', '1', '~'] = Simpad.HOME_KEY ∧
      Simpad.editorReadKey '\x1b' ['[', '7', '~'] = Simpad.HOME_KEY ∧
      Simpad.editorReadKey '\x1b' ['[', '4', '~'] = Simpad.END_KEY ∧
      Simpad.editorReadKey '\x1b' ['[', '8', '~'] = Simpad.END_KEY ∧
      Simpad.editorReadKey '\x1b' ['[', '6', '~'] = Simpad.PAGE_DOWN ∧
      (∀ d b : Char, '0' ≤ d → d ≤ '9' → b ≠ '~' →
        Simpad.editorReadKey '\x1b' ['[', d, b] = 27) ∧
      Simpad.editorReadKey '\x1b' ['['] = 27 := by
  refine ⟨by decide, by decide, by decide, by decide, by decide, by decide, by decide,
    by decide, ?_, by decide⟩
  intro d b h0 h9 hb
  simp [Simpad.editorReadKey, h0, h9, hb]

/-- Witness for C6: the digit-then-non-tilde clause at the concrete
sequence `{0x1B,'[','5','x'}`. -/
theorem c6_decoder_table_witness :
    (('0' ≤ '5') ∧ ('5' ≤ '9') ∧ ('x' ≠ '~')) ∧
      Simpad.editorReadKey '\x1b' ['[', '5', 'x'] = 27 :=
  ⟨⟨by decide, by decide, by decide⟩,
    c6_decoder_table.2.2.2.2.2.2.2.2.1 '5' 'x' (by decide) (by decide) (by decide)⟩

/-- C7: on the document `["foo", "bar", "foobar"]` with query `"foo"` and no
prior match, a forward search (triggered here by the non-navigation keystroke
`'o'`, which resets the scan) finds row 0; a second forward search (direction
forward from the previous match, via the right arrow) finds row 2; a third
forward search wraps around and finds row 0 again. -/
theorem c7_search_wraparound :
    (Simpad.editorFindCallback ["foo".toList, "bar".toList, "foobar".toList] "foo".toList
        ⟨-1, 1⟩ 111).2 = some 0 ∧
      (Simpad.editorFindCallback ["foo".toList, "bar".toList, "foobar".toList] "foo".toList
        (Simpad.editorFindCallback ["foo".toList, "bar".toList, "foobar".toList] "foo".toList
          ⟨-1, 1⟩ 111).1 Simpad.ARROW_RIGHT).2 = some 2 ∧
      (Simpad.editorFindCallback ["foo".toList, "bar".toList, "foobar".toList] "foo".toList
        (Simpad.editorFindCallback ["foo".toList, "bar".toList, "foobar".toList] "foo".toList
          (Simpad.editorFindCallback ["foo".toList, "bar".toList, "foobar".toList]
            "foo".toList ⟨-1, 1⟩ 111).1 Simpad.ARROW_RIGHT).1 Simpad.ARROW_RIGHT).2
        = some 0 := by
  decide

/-- C8: when a save fails at any stage — the file cannot be opened/created,
cannot be truncated, or the write does not complete (`editorSave` ends in the
"Can't save! I/O error" status message) — the in-memory rows and the modified
counter are left exactly as they were; the failure shows up only in the
returned status message. -/
theorem c8_save_failure_preserves (st : Simpad.EState) (env : Simpad.SaveEnv)
    (h : (Simpad.editorSave st env).2 = Simpad.SaveMsg.ioError) :
    (Simpad.editorSave st env).1.rows = st.rows ∧
      (Simpad.editorSave st env).1.changed = st.changed := by
  unfold Simpad.editorSave Simpad.saveBody at h ⊢
  cases hfn : st.fileName with
  | none =>
    cases hp : env.promptResult with
    | none => simp [hfn, hp] at h
    | some name =>
      simp only [hfn, hp] at h ⊢
      by_cases ho : env.openOk <;> by_cases ht : env.truncOk <;>
        by_cases hw : env.writeCount = ((Simpad.editorRowsToString st.rows).length : Int) <;>
        simp_all
  | some name =>
    simp only [hfn] at h ⊢
    by_cases ho : env.openOk <;> by_cases ht : env.truncOk <;>
      by_cases hw : env.writeCount = ((Simpad.editorRowsToString st.rows).length : Int) <;>
      simp_all

/-- Witness for C8: a failing `open` on a named one-row modified document
leaves rows and the modified counter untouched. -/
theorem c8_save_failure_preserves_witness :
    (Simpad.editorSave (⟨0, 0, 0, 0, 0, 10, 40, [['a']], 3, some ['f']⟩ : Simpad.EState)
          ⟨none, false, true, 2⟩).2 = Simpad.SaveMsg.ioError ∧
      (Simpad.editorSave (⟨0, 0, 0, 0, 0, 10, 40, [['a']], 3, some ['f']⟩ : Simpad.EState)
          ⟨none, false, true, 2⟩).1.rows = [['a']] ∧
      (Simpad.editorSave (⟨0, 0, 0, 0, 0, 10, 40, [['a']], 3, some ['f']⟩ : Simpad.EState)
          ⟨none, false, true, 2⟩).1.changed = 3 := by
  refine ⟨by decide, ?_⟩
  have h := c8_save_failure_preserves
    (⟨0, 0, 0, 0, 0, 10, 40, [['a']], 3, some ['f']⟩ : Simpad.EState)
    ⟨none, false, true, 2⟩ (by decide)
  exact ⟨by rw [h.1], by rw [h.2]⟩

/-- C9: loading the file whose bytes are the lines `"ab\tc"`, `""`, `"last"`,
each terminated by a single line-feed byte, strips exactly the terminators
(giving rows `["ab\tc", "", "last"]`), and serializing the unedited document
with `editorRowsToString` — each row's raw content followed by exactly one
line-feed byte, in row order — reproduces the original bytes. -/
theorem c9_load_save_roundtrip :
    Simpad.editorOpenRows ("ab\tc\n\nlast\n".toList)
        = ["ab\tc".toList, [], "last".toList] ∧
      Simpad.editorRowsToString (Simpad.editorOpenRows ("ab\tc\n\nlast\n".toList))
        = "ab\tc\n\nlast\n".toList := by
  decide

/-- C10: the prompt loop never accepts empty input — pressing enter with an
empty buffer is ignored and the loop keeps prompting — so a prompt can only
ever return a non-empty string or a cancellation. -/
theorem c10_prompt_never_accepts_empty :
    (∀ rest, Simpad.editorPrompt (13 :: rest) [] = Simpad.editorPrompt rest []) ∧
      (∀ keys buffer s, Simpad.editorPrompt keys buffer = some (some s) → s ≠ []) := by
  constructor
  · intro rest
    simp [Simpad.editorPrompt]
  · intro keys
    induction keys with
    | nil => intro buffer s h; simp [Simpad.editorPrompt] at h
    | cons c rest ih =>
      intro buffer s h
      simp only [Simpad.editorPrompt] at h
      split_ifs at h with h1 h2 h3 h4 h5
      · exact ih _ _ h
      · simp at h
      · simp only [Option.some.injEq] at h
        rw [← h]
        exact h4
      · exact ih _ _ h
      · exact ih _ _ h
      · exact ih _ _ h

/-- Witness for C10: enter on the empty buffer is skipped, then `'a'` is
typed and enter accepts the non-empty buffer `"a"`. -/
theorem c10_prompt_never_accepts_empty_witness :
    Simpad.editorPrompt [13, 97, 13] [] = Simpad.editorPrompt [97, 13] [] ∧
      (Simpad.editorPrompt [13, 97, 13] [] = some (some ['a']) ∧ ['a'] ≠ []) :=
  ⟨c10_prompt_never_accepts_empty.1 [97, 13],
    by decide,
    c10_prompt_never_accepts_empty.2 [13, 97, 13] [] ['a'] (by decide)⟩
